import Mathlib

/-!
Shallow embedding of the completion / hover core of markdown-oxide
(src/completion/link_completer.rs and src/hover.rs).

The vault index, the reference scanner (`Reference::new`), chrono and the
filesystem are external to the two checked source files; they enter the
embedding as explicit inputs (function-valued `Vault` fields, a `Ctx`
record carrying the date facilities, an explicit reference list and an
explicit modification-time map), modelled from the spec's description of
those interfaces.  Dates are day numbers (`Int`); positions count
characters, as in the spec's data model.
-/

/-- LSP position: zero-based line and character. -/
structure Position where
  line : Nat
  character : Nat
deriving DecidableEq, Repr

/-- LSP range; the source's `end` field is named `stop` (`end` is a Lean keyword). -/
structure Range where
  start : Position
  stop : Position
deriving DecidableEq, Repr

/-- Modelled from the spec: the data every reference occurrence carries
(its text range in the document). -/
structure ReferenceData where
  range : Range
deriving DecidableEq, Repr

/-- Modelled from the spec: reference occurrences found in document text —
markdown-link kinds, wiki kinds, the generic link kind the hover resolver
matches, and non-link kinds. -/
inductive Reference where
  | Tag (d : ReferenceData)
  | WikiFileLink (d : ReferenceData)
  | MDFileLink (d : ReferenceData)
  | MDHeadingLink (d : ReferenceData)
  | MDIndexedBlockLink (d : ReferenceData)
  | Footnote (d : ReferenceData)
  | Link (d : ReferenceData)
deriving DecidableEq, Repr

/-- `Reference::data()`: the payload common to all variants. -/
def Reference.data : Reference → ReferenceData
  | .Tag d | .WikiFileLink d | .MDFileLink d | .MDHeadingLink d
  | .MDIndexedBlockLink d | .Footnote d | .Link d => d

/-- The markdown-link kinds singled out in `MarkdownLinkCompleter::construct`. -/
def Reference.is_md_link_kind : Reference → Bool
  | .MDFileLink _ | .MDHeadingLink _ | .MDIndexedBlockLink _ => true
  | _ => false

/-- The link kind the hover resolver reacts to (`Reference::Link(_)`). -/
def Reference.is_hover_link : Reference → Bool
  | .Link _ => true
  | _ => false

/-- Modelled from the spec: a heading of an indexed markdown file. -/
structure MDHeading where
  heading_text : String
deriving DecidableEq, Repr

/-- Modelled from the spec: an indexed markdown file (its path and headings,
the fields the completer reads). -/
structure MDFile where
  path : String
  headings : List MDHeading
deriving DecidableEq, Repr

/-- Modelled from the spec: an indexed block with its index text. -/
structure MDIndexedBlock where
  index : String
deriving DecidableEq, Repr

/-- Modelled from the spec: link targets; equality is by discriminant plus
identifying fields.  The constructor spellings keep the source's names. -/
inductive Referenceable where
  | File (path : String) (mdfile : MDFile)
  | Heading (path : String) (mdheading : MDHeading)
  | IndexedBlock (path : String) (indexed : MDIndexedBlock)
  | UnresovledFile (path : String) (file : String)
  | UnresolvedHeading (path : String) (s1 : String) (s2 : String)
  | UnresovledIndexedBlock (path : String) (s1 : String) (s2 : String)
  | Tag (path : String)
deriving DecidableEq, Repr

/-- Modelled from the spec: whether a target is an unresolved name. -/
def Referenceable.is_unresolved : Referenceable → Bool
  | .UnresovledFile .. | .UnresolvedHeading .. | .UnresovledIndexedBlock .. => true
  | _ => false

/-- Split a character list on a separator (used to take path components). -/
def splitOnChar (sep : Char) (l : List Char) : List (List Char) :=
  l.foldr (fun c acc =>
    match acc with
    | [] => if c = sep then [[], []] else [[c]]
    | cur :: rest => if c = sep then [] :: cur :: rest else (c :: cur) :: rest) [[]]

/-- `Path::file_name`: the final path component (none for empty, `.`, `..`). -/
def fileNameOf (p : String) : Option String :=
  match ((splitOnChar '/' p.data).filter (fun s => s ≠ [])).getLast? with
  | none => none
  | some s => if s = ['.'] ∨ s = ['.', '.'] then none else some (String.mk s)

/-- The stem of a file name: everything before the final `.`, except that a
name whose only `.` is its first character is returned whole. -/
def fileStemOfName (s : String) : String :=
  let cs := s.data
  match cs.reverse.findIdx? (fun c => c = '.') with
  | none => s
  | some k =>
    let i := cs.length - 1 - k
    if i = 0 then s else String.mk (cs.take i)

/-- `Path::file_stem` as used on the vault's file paths. -/
def fileStemOf (p : String) : Option String :=
  (fileNameOf p).map fileStemOfName

/-- Remove every (non-overlapping, left-to-right) occurrence of `.md`,
as `filename.replace(".md", "")` does in `MDDailyNote::new`. -/
def removeMd : List Char → List Char
  | '.' :: 'm' :: 'd' :: rest => removeMd rest
  | c :: rest => c :: removeMd rest
  | [] => []

/-- `filename.replace(".md", "")` from `MDDailyNote::new`. -/
def replaceMd (s : String) : String :=
  String.mk (removeMd s.data)

/-- The daily-note date format from the configuration. -/
structure Settings where
  dailynote : String
deriving Repr

/-- Ambient request context: the settings plus the external collaborators the
completer consumes — chrono's date parsing and current local date (dates as
day numbers), and the preview renderer — modelled from the spec as inputs. -/
structure Ctx where
  settings : Settings
  parse_from_str : String → String → Option Int
  today : Int
  preview : Referenceable → Option String

/-- A daily-note candidate: the relative-day search key, the plain file stem
to insert, and the source target. -/
structure MDDailyNote where
  match_string : String
  ref_name : String
  referenceable : Referenceable
deriving DecidableEq, Repr

/-- `MDDailyNote::new`: strip `.md` from the file name, parse it under the
configured format, and classify by `(date - today).num_days()` with the
source's guards (`0`, `1 if date > today`, `1 if date < today`, else none). -/
def MDDailyNote.new (ctx : Ctx) (referenceable : Referenceable) : Option MDDailyNote :=
  match referenceable with
  | .File path mdfile =>
    let filename := fileNameOf path
    let dailynote_format := ctx.settings.dailynote
    let date : Option Int := filename.bind (fun filename =>
      ctx.parse_from_str (replaceMd filename) dailynote_format)
    let today := ctx.today
    (fileStemOf mdfile.path).bind (fun file_refname =>
      ((date.bind (fun date =>
        if date - today = 0 then some ("today: " ++ file_refname)
        else if date - today = 1 ∧ date > today then some ("tomorrow: " ++ file_refname)
        else if date - today = 1 ∧ date < today then some ("yesterday: " ++ file_refname)
        else none)).map (fun thing => (file_refname, thing))).map (fun p =>
      { match_string := p.2, ref_name := p.1, referenceable := referenceable }))
  | _ => none

/-- One completion candidate built from one `Referenceable`. -/
inductive LinkCompletion where
  | File (mdfile : MDFile) (match_string : String) (referenceable : Referenceable)
  | Heading (heading : MDHeading) (match_string : String) (referenceable : Referenceable)
  | Block (match_string : String) (referenceable : Referenceable)
  | Unresolved (match_string : String) (infile_ref : Option String) (referenceable : Referenceable)
  | DailyNote (note : MDDailyNote)
deriving DecidableEq, Repr

/-- The fuzzy-search key (`impl Matchable for LinkCompletion`). -/
def LinkCompletion.match_string : LinkCompletion → String
  | .File _ m _ | .Heading _ m _ | .Block m _ | .Unresolved m _ _ => m
  | .DailyNote note => note.match_string

/-- `LinkCompletion::refname`: the refname to be inserted into the document. -/
def LinkCompletion.refname : LinkCompletion → String
  | .DailyNote note => note.ref_name
  | c => c.match_string

/-- The source `Referenceable` of a candidate. -/
def LinkCompletion.referenceable : LinkCompletion → Referenceable
  | .File _ _ r | .Heading _ _ r | .Block _ r | .Unresolved _ _ r => r
  | .DailyNote note => note.referenceable

/-- `LinkCompletion::new`: daily-note classification first, else map by kind
to a match string (file stem, `stem#heading`, `stem#^index`, raw unresolved
names); a missing stem drops the candidate. -/
def LinkCompletion.new (ctx : Ctx) (referenceable : Referenceable) : Option LinkCompletion :=
  match MDDailyNote.new ctx referenceable with
  | some daily => some (.DailyNote daily)
  | none =>
    match referenceable with
    | .File _ mdfile =>
      (fileStemOf mdfile.path).map (fun stem => .File mdfile stem referenceable)
    | .Heading path mdheading =>
      (fileStemOf path).map (fun stem =>
        .Heading mdheading (stem ++ "#" ++ mdheading.heading_text) referenceable)
    | .IndexedBlock path indexed =>
      (fileStemOf path).map (fun stem =>
        .Block (stem ++ "#^" ++ indexed.index) referenceable)
    | .UnresovledFile _ file => some (.Unresolved file none referenceable)
    | .UnresolvedHeading _ s1 s2 =>
      some (.Unresolved (s1 ++ "#" ++ s2) (some s2) referenceable)
    | .UnresovledIndexedBlock _ s1 s2 =>
      some (.Unresolved (s1 ++ "#^" ++ s2) (some ("^" ++ s2)) referenceable)
    | .Tag _ => none

/-- The partially-typed infile ref of a markdown partial link; a block ref
stores the text after the `^`. -/
inductive PartialInfileRef where
  | HeadingRef (s : String)
  | BlockRef (s : String)
deriving DecidableEq, Repr

/-- `PartialInfileRef::to_string` (the block variant re-adds the `^`). -/
def PartialInfileRef.to_string : PartialInfileRef → String
  | .HeadingRef s => s
  | .BlockRef s => "^" ++ s

/-- `PartialInfileRef::completion_string` (identical rendering). -/
def PartialInfileRef.completion_string : PartialInfileRef → String
  | .HeadingRef s => s
  | .BlockRef s => "^" ++ s

/-- A protocol text edit: replacement range plus new text. -/
structure TextEdit where
  range : Range
  new_text : String
deriving DecidableEq, Repr

/-- The completion-item kinds the completer emits. -/
inductive CompletionItemKind where
  | File
  | Reference
  | Keyword
  | Event
deriving DecidableEq, Repr

/-- The insertion-format flag; absent means plain text. -/
inductive InsertTextFormat where
  | Snippet
deriving DecidableEq, Repr

/-- The slice of the protocol completion item the completer fills in. -/
structure CompletionItem where
  label : String
  kind : Option CompletionItemKind
  label_detail : Option String
  text_edit : Option TextEdit
  filter_text : Option String
  documentation : Option String
  insert_text_format : Option InsertTextFormat
deriving DecidableEq, Repr

/-- The markdown partial-link context built by
`MarkdownLinkCompleter::construct`; ranges are `(start, stop)` character
offsets on the cursor's line. -/
structure MarkdownLinkCompleter where
  display : String × (Nat × Nat)
  path : String × (Nat × Nat)
  infile_ref : Option (PartialInfileRef × (Nat × Nat))
  partial_link : String × (Nat × Nat)
  full_range : Nat × Nat
  line_nr : Nat
  position : Position
  file_path : String
deriving DecidableEq, Repr

/-- `MarkdownLinkCompleter::completion_text_edit`: new text
`[<display>](<refname>)`, the refname wrapped in angle brackets when it
contains a space; the replacement range is `full_range` on `line_nr`. -/
def MarkdownLinkCompleter.completion_text_edit (c : MarkdownLinkCompleter)
    (display : Option String) (refname : String) : TextEdit :=
  let link_ref_text := if refname.data.contains ' ' then "<" ++ refname ++ ">" else refname
  { range :=
      { start := { line := c.line_nr, character := c.full_range.1 },
        stop := { line := c.line_nr, character := c.full_range.2 } },
    new_text := "[" ++ display.getD "" ++ "](" ++ link_ref_text ++ ")" }

/-- `MarkdownLinkCompleter::entered_refname`: typed path plus infile ref. -/
def MarkdownLinkCompleter.entered_refname (c : MarkdownLinkCompleter) : String :=
  c.path.1 ++ ((c.infile_ref.map (fun p => p.1.to_string)).getD "")

/-- `MarkdownLinkCompleter::completion_filter_text`: `[<display>](<params>`. -/
def MarkdownLinkCompleter.completion_filter_text (c : MarkdownLinkCompleter)
    (params : String) : String :=
  "[" ++ c.display.1 ++ "](" ++ params

/-- The wiki partial-link context built by `WikiLinkCompleter::construct`;
`index` is the offset of the second `[` of the opening `[[`. -/
structure WikiLinkCompleter where
  cmp_text : List Char
  files : List String
  index : Nat
  character : Nat
  line : Nat
  context_path : String
deriving DecidableEq, Repr

/-- `WikiLinkCompleter::completion_text_edit`: new text
`<refname>` plus `|<display>` when a display is supplied; the replacement
range runs from one past `index` to the cursor. -/
def WikiLinkCompleter.completion_text_edit (c : WikiLinkCompleter)
    (display : Option String) (refname : String) : TextEdit :=
  { range :=
      { start := { line := c.line, character := c.index + 1 },
        stop := { line := c.line, character := c.character } },
    new_text := refname ++ ((display.map (fun d => "|" ++ d)).getD "") }

/-- `WikiLinkCompleter::entered_refname`: the captured fragment. -/
def WikiLinkCompleter.entered_refname (c : WikiLinkCompleter) : String :=
  String.mk c.cmp_text

/-- `WikiLinkCompleter::completion_filter_text`: the params themselves. -/
def WikiLinkCompleter.completion_filter_text (_ : WikiLinkCompleter)
    (params : String) : String :=
  params

/-- Modelled from the spec: the external vault index, as the query surface
the core consumes, plus the target-side primitives (`is_reference`,
`get_range`, `get_path`) that live on `Referenceable` in the index crate. -/
structure Vault where
  select_referenceable_nodes : Option String → List Referenceable
  select_reference_at_position : String → Position → Option Reference
  select_referenceables_for_reference : Reference → String → List Referenceable
  select_references_for_referenceable : Referenceable → Option (List (String × Reference))
  select_references : Option String → Option (List (String × Reference))
  select_line : String → Int → Option (List Char)
  root_dir : String
  is_reference : Referenceable → String → Reference → String → Bool
  get_range : Referenceable → Range
  get_path : Referenceable → String

/-- The Unresolved target of the reference under the cursor, when any
(`LinkCompleter::link_completions`, first half). -/
def unresolved_under_cursor (vault : Vault) (self_path : String)
    (position : Position) : Option Referenceable :=
  (((vault.select_reference_at_position self_path position).map
      (fun reference => vault.select_referenceables_for_reference reference self_path)).getD
    []).find? (fun referenceable => referenceable.is_unresolved)

/-- That target, retained only when exactly one reference vault-wide points
to it (`LinkCompleter::link_completions`, second half). -/
def single_unresolved_under_cursor (vault : Vault) (self_path : String)
    (position : Position) : Option Referenceable :=
  (unresolved_under_cursor vault self_path position).bind (fun referenceable =>
    (vault.select_references_for_referenceable referenceable).bind (fun refs =>
      if refs.length = 1 then some referenceable else none))

/-- `LinkCompleter::link_completions`: all vault referenceables, minus the
single unresolved target under the cursor, each converted to a candidate. -/
def link_completions (ctx : Ctx) (vault : Vault) (self_path : String)
    (position : Position) : List LinkCompletion :=
  let referenceables := vault.select_referenceable_nodes none
  (referenceables.filter (fun referenceable =>
      !(some referenceable == single_unresolved_under_cursor vault self_path position))).filterMap
    (fun referenceable => LinkCompletion.new ctx referenceable)

/-- A character admissible in the regex's `display` and `infileref` classes:
anything but the four bracket characters. -/
def is_display_char (c : Char) : Bool :=
  !(c = '[' ∨ c = ']' ∨ c = '(' ∨ c = ')')

/-- A character admissible in the regex's `path` class: additionally not `#`. -/
def is_path_char (c : Char) : Bool :=
  is_display_char c && !(c = '#')

/-- One successful match of the partial-markdown-link pattern
`\[(display)\]\((path)(\#(infileref))?$`; ranges are character offsets into
the matched haystack, `(start, stop)` the whole-match range. -/
structure MdMatch where
  start : Nat
  stop : Nat
  display : String
  display_range : Nat × Nat
  path : String
  path_range : Nat × Nat
  infileref : Option (String × (Nat × Nat))
deriving DecidableEq, Repr

/-- Try the pattern at start offset `i`; the character classes exclude every
delimiter, so the greedy runs are forced and the match, which must end at
the end of the haystack, is deterministic. -/
def md_regex_match_at (s : List Char) (i : Nat) : Option MdMatch :=
  if s[i]? = some '[' then
    let dlen := ((s.drop (i + 1)).takeWhile is_display_char).length
    let j := i + 1 + dlen
    if s[j]? = some ']' ∧ s[j + 1]? = some '(' then
      let plen := ((s.drop (j + 2)).takeWhile is_path_char).length
      let k := j + 2 + plen
      let display := String.mk ((s.drop (i + 1)).take dlen)
      let path := String.mk ((s.drop (j + 2)).take plen)
      if k = s.length then
        some { start := i, stop := k,
               display := display, display_range := (i + 1, j),
               path := path, path_range := (j + 2, k),
               infileref := none }
      else if s[k]? = some '#' then
        let rlen := ((s.drop (k + 1)).takeWhile is_display_char).length
        let m := k + 1 + rlen
        if m = s.length then
          some { start := i, stop := m,
                 display := display, display_range := (i + 1, j),
                 path := path, path_range := (j + 2, k),
                 infileref := some (String.mk ((s.drop (k + 1)).take rlen), (k + 1, m)) }
        else none
      else none
    else none
  else none

/-- The leftmost match of the partial-markdown-link pattern on `s`
(`PARTIAL_MDLINK_REGEX.captures`). -/
def find_md_match (s : List Char) : Option MdMatch :=
  (List.range (s.length + 1)).findSome? (md_regex_match_at s)

/-- `slice.get(a..b)`: defined exactly when `a ≤ b ≤ len`. -/
def sliceGet (l : List Char) (a b : Nat) : Option (List Char) :=
  if a ≤ b ∧ b ≤ l.length then some ((l.drop a).take (b - a)) else none

/-- The overlap test `construct` applies to each scanned reference:
`start.character ≤ cursor ≤ end.character`. -/
def overlaps_cursor (character : Nat) (reference : Reference) : Bool :=
  decide (reference.data.range.start.character ≤ character ∧
          character ≤ reference.data.range.stop.character)

/-- `MarkdownLinkCompleter::construct`.  The line's characters come from the
vault (`select_line`, here an `Option` input) and the complete-link
occurrences on the line come from the external `Reference::new` scanner,
here the explicit `refs_on_line` input.  The replacement range is the
overlapping markdown link's range when one is found, else the regex match's
range, extended by one when no occurrence overlaps and the character at the
cursor is `)`. -/
def MarkdownLinkCompleter.construct (line_chars_opt : Option (List Char))
    (refs_on_line : List Reference) (line : Nat) (character : Nat)
    (file_path : String) : Option MarkdownLinkCompleter :=
  line_chars_opt.bind (fun line_chars =>
    (sliceGet line_chars 0 character).bind (fun line_to_cursor =>
      (find_md_match line_to_cursor).bind (fun m =>
        let reference_under_cursor := refs_on_line.find? (overlaps_cursor character)
        let full_range :=
          match reference_under_cursor with
          | some r =>
            if r.is_md_link_kind then
              (r.data.range.start.character, r.data.range.stop.character)
            else (m.start, m.stop)
          | none =>
            if line_chars[character]? = some ')' then (m.start, m.stop + 1)
            else (m.start, m.stop)
        let partial_infileref := m.infileref.map (fun p =>
          match p.1.data with
          | '^' :: rest => (PartialInfileRef.BlockRef (String.mk rest), p.2)
          | _ => (PartialInfileRef.HeadingRef p.1, p.2))
        some { display := (m.display, m.display_range),
               path := (m.path, m.path_range),
               infile_ref := partial_infileref,
               partial_link := (String.mk ((line_to_cursor.drop m.start).take (m.stop - m.start)),
                                (m.start, m.stop)),
               full_range := full_range,
               line_nr := line,
               position := { line := line, character := character },
               file_path := file_path })))

/-- `WikiLinkCompleter::construct`: scan the characters up to and including
the cursor backwards for the nearest `[[`, fail when a `]` intervenes, and
capture everything between the marker and the cursor. -/
def WikiLinkCompleter.construct (line_chars_opt : Option (List Char))
    (opened_files : List String) (context_path : String) (line : Nat)
    (character : Nat) : Option WikiLinkCompleter :=
  line_chars_opt.bind (fun line_chars =>
    (if character < line_chars.length then some (line_chars.take (character + 1))
     else none).bind (fun upto =>
      let enum := upto.enum
      let pairs := enum.zip enum.tail
      ((pairs.reverse.find? (fun p =>
          decide (p.1.2 = '[' ∧ p.2.2 = '['))).map (fun p => p.2.1)).bind (fun index =>
        ((sliceGet line_chars index character).bind (fun seg =>
          if seg.contains ']' then none else some index)).bind (fun index =>
          (sliceGet line_chars (index + 1) character).bind (fun cmp_text =>
            some { cmp_text := cmp_text, files := opened_files, index := index,
                   character := character, line := line, context_path := context_path })))))

/-- `LinkCompletion::default_completion`: label, kind tag by variant, an
`Unresolved` qualifier for unresolved candidates, the supplied edit and
filter text, optional rendered preview, and no insertion-format flag. -/
def LinkCompletion.default_completion (ctx : Ctx) (c : LinkCompletion)
    (refname : String) (text_edit : TextEdit) (filter_text : String) : CompletionItem :=
  { label := refname,
    kind := some (match c with
      | .File .. => .File
      | .Heading .. | .Block .. => .Reference
      | .Unresolved .. => .Keyword
      | .DailyNote .. => .Event),
    label_detail := match c with
      | .Unresolved .. => some "Unresolved"
      | _ => none,
    text_edit := some text_edit,
    filter_text := some filter_text,
    documentation := ctx.preview c.referenceable,
    insert_text_format := none }

/-- The default display text chosen by the markdown `Completable` impl: the
typed display when non-empty, else the candidate's infile text (heading text
or unresolved infile ref), else a file candidate's first heading, else empty. -/
def link_display_text_of (c : LinkCompletion) (display : String) : String :=
  let link_infile_ref : Option String :=
    match c with
    | .File .. | .Block .. | .DailyNote .. => none
    | .Heading heading _ _ => some heading.heading_text
    | .Unresolved _ infile_ref _ => infile_ref
  match display, link_infile_ref with
  | "", some infile => infile
  | "", none =>
    match c with
    | .File mdfile _ _ => ((mdfile.headings[0]?).map (fun h => h.heading_text)).getD ""
    | _ => ""
  | d, _ => d

/-- `Completable<MarkdownLinkCompleter> for LinkCompletion::completions`:
label and inserted refname are both the match string; the display text goes
into an editable `$\x7b1:...\x7d` tab stop and the item is marked snippet. -/
def LinkCompletion.md_completions (ctx : Ctx) (c : LinkCompletion)
    (completer : MarkdownLinkCompleter) : CompletionItem :=
  let label := c.match_string
  let link_display_text := "$\x7b1:" ++ link_display_text_of c completer.display.1 ++ "\x7d"
  let text_edit := completer.completion_text_edit (some link_display_text) label
  let filter_text := completer.completion_filter_text label
  { c.default_completion ctx label text_edit filter_text with
      insert_text_format := some .Snippet }

/-- `Completable<WikiLinkCompleter> for LinkCompletion::completions`: the
edit inserts `refname()` with no display, the label and filter text are the
match string, and the insertion format stays plain. -/
def LinkCompletion.wiki_completions (ctx : Ctx) (c : LinkCompletion)
    (completer : WikiLinkCompleter) : CompletionItem :=
  let refname := c.refname
  let match_text := c.match_string
  let text_edit := completer.completion_text_edit none refname
  let filter_text := completer.completion_filter_text match_text
  c.default_completion ctx match_text text_edit filter_text

/-- Insert into a key-sorted list, before the first entry of larger-or-equal
key; used to mirror the stable ascending `sorted_by_key`. -/
def insert_by_key (x : String × Nat) : List (String × Nat) → List (String × Nat)
  | [] => [x]
  | y :: ys => if x.2 ≤ y.2 then x :: y :: ys else y :: insert_by_key x ys

/-- Stable ascending sort by key, as `itertools::sorted_by_key` performs. -/
def sort_by_key_stable : List (String × Nat) → List (String × Nat)
  | [] => []
  | x :: xs => insert_by_key x (sort_by_key_stable xs)

/-- The modification timestamp `completions` attaches to an open document:
the seconds-since-epoch value when readable, else the epoch itself.
Modelled from the spec where the source reads the filesystem
(`std::fs::metadata(...).modified()`): `mtime` is the readable-times map. -/
def modified_key (mtime : String → Option Nat) (path : String) : String × Nat :=
  match mtime path with
  | some modified => (path, modified)
  | none => (path, 0)

/-- The empty-fragment fallback branch of
`Completer<WikiLinkCompleter>::completions`: open documents paired with
their modification times, sorted ascending by time, each document's
referenceables converted to candidates carrying the stringified time as
presentation rank. -/
def WikiLinkCompleter.recent_fallback (ctx : Ctx) (vault : Vault)
    (mtime : String → Option Nat) (c : WikiLinkCompleter) :
    List (LinkCompletion × String) :=
  let with_times := c.files.map (modified_key mtime)
  let sorted := sort_by_key_stable with_times
  sorted.flatMap (fun pm =>
    let referenceables := vault.select_referenceable_nodes (some pm.1)
    let modified_string := toString pm.2
    referenceables.filterMap (fun referenceable =>
      (LinkCompletion.new ctx referenceable).map (fun comp => (comp, modified_string))))

/-- The hover resolver's cursor-containment test (both line and character
bounds inclusive). -/
def hover_overlap (pos : Position) (l : String × Reference) : Bool :=
  decide (l.2.data.range.start.line ≤ pos.line ∧
          pos.line ≤ l.2.data.range.stop.line ∧
          l.2.data.range.start.character ≤ pos.character ∧
          pos.character ≤ l.2.data.range.stop.character)

/-- The hover preview body: the target's anchor lines plus the following 10
lines, read verbatim and concatenated (absent lines skipped). -/
def preview_text (vault : Vault) (referenceable : Referenceable) : String :=
  let range := vault.get_range referenceable
  String.join ((((List.range (range.stop.line + 10 + 1)).drop range.start.line).filterMap
    (fun ln => vault.select_line (vault.get_path referenceable) (Int.ofNat ln))).map
    (fun cs => String.mk cs))

/-- The markup heading the hover resolver chooses by target kind. -/
def hover_header : Referenceable → String
  | .File _ _ => "File Preview:\n---\n\n"
  | .Heading _ _ => "Heading Preview:\n---\n\n"
  | .IndexedBlock _ _ => "Block Preview:\n---\n\n"
  | _ => "Preview:\n---\n\n"

/-- The markup content a hover answer carries. -/
structure HoverOut where
  value : String
deriving DecidableEq, Repr

/-- `hover` (src/hover.rs): find the reference containing the cursor, react
only to the link kind, resolve it to a referenceable, and render the kind
heading plus the preview window. -/
def hover (vault : Vault) (cursor_position : Position) (path : String) :
    Option HoverOut :=
  (vault.select_references (some path)).bind (fun links =>
    (links.find? (hover_overlap cursor_position)).bind (fun found =>
      match found.2 with
      | .Link _ =>
        ((vault.select_referenceable_nodes none).find? (fun i =>
            vault.is_reference i vault.root_dir found.2 found.1)).bind (fun referenceable =>
          some { value := hover_header referenceable ++ preview_text vault referenceable })
      | _ => none))

/-- A request context whose date format is `%Y-%m-%d`, whose parser knows the
single date `2024-01-01` (day number 19723), and where today is 2024-01-02. -/
def c1_ctx : Ctx :=
  { settings := { dailynote := "%Y-%m-%d" }
    parse_from_str := fun text fmt =>
      if text = "2024-01-01" ∧ fmt = "%Y-%m-%d" then some 19723 else none
    today := 19724
    preview := fun _ => none }

/-- The same context served on 2024-01-01 itself. -/
def c1_ctx_same_day : Ctx := { c1_ctx with today := 19723 }

/-- The same context served on 2023-12-31. -/
def c1_ctx_day_before : Ctx := { c1_ctx with today := 19722 }

/-- The vault file `2024-01-01.md`. -/
def c1_file : Referenceable :=
  .File "2024-01-01.md" { path := "2024-01-01.md", headings := [] }

/-- A context with no parsable dates and an empty preview collaborator. -/
def plain_ctx : Ctx :=
  { settings := { dailynote := "%Y-%m-%d" }
    parse_from_str := fun _ _ => none
    today := 0
    preview := fun _ => none }

/-- A vault whose every query comes back empty. -/
def empty_vault : Vault :=
  { select_referenceable_nodes := fun _ => []
    select_reference_at_position := fun _ _ => none
    select_referenceables_for_reference := fun _ _ => []
    select_references_for_referenceable := fun _ => none
    select_references := fun _ => none
    select_line := fun _ _ => none
    root_dir := ""
    is_reference := fun _ _ _ _ => false
    get_range := fun _ => { start := ⟨0, 0⟩, stop := ⟨0, 0⟩ }
    get_path := fun _ => "" }

/-- The daily-note candidate the code builds for `2024-01-01.md` on the day
itself. -/
def c2_daily : LinkCompletion :=
  .DailyNote { match_string := "today: 2024-01-01", ref_name := "2024-01-01", referenceable := c1_file }

/-- A markdown partial-link context with empty typed display and path,
replacing characters 0..3 of line 0. -/
def c2_md_completer : MarkdownLinkCompleter :=
  { display := ("", (1, 1))
    path := ("", (3, 3))
    infile_ref := none
    partial_link := ("[](", (0, 3))
    full_range := (0, 3)
    line_nr := 0
    position := ⟨0, 3⟩
    file_path := "doc.md" }

/-- A wiki partial-link context with empty captured fragment. -/
def c2_wiki_completer : WikiLinkCompleter :=
  { cmp_text := []
    files := []
    index := 0
    character := 2
    line := 0
    context_path := "doc.md" }

/-- The single complete-link occurrence `[x](missing)` on line 0 of the
scenario document. -/
def c3_ref : Reference := .MDFileLink { range := { start := ⟨0, 4⟩, stop := ⟨0, 12⟩ } }

/-- The unresolved target `missing`. -/
def c3_missing : Referenceable := .UnresovledFile "doc.md" "missing"

/-- An ordinary resolved file target in the same vault. -/
def c3_other : Referenceable := .File "notes.md" { path := "notes.md", headings := [] }

/-- Scenario vault: one resolved file, the unresolved `missing` target, one
reference at the cursor resolving to it, and exactly one occurrence
vault-wide. -/
def c3_vault1 : Vault :=
  { empty_vault with
    select_referenceable_nodes := fun _ => [c3_other, c3_missing]
    select_reference_at_position := fun p pos =>
      if p = "doc.md" ∧ pos = ⟨0, 8⟩ then some c3_ref else none
    select_referenceables_for_reference := fun r p =>
      if r = c3_ref ∧ p = "doc.md" then [c3_missing] else []
    select_references_for_referenceable := fun r =>
      if r = c3_missing then some [("doc.md", c3_ref)] else some [] }

/-- The same vault after a second `[x](missing)` occurrence is added
elsewhere (the reference count becomes 2). -/
def c3_vault2 : Vault :=
  { c3_vault1 with
    select_references_for_referenceable := fun r =>
      if r = c3_missing then some [("doc.md", c3_ref), ("other.md", c3_ref)] else some [] }

/-- The cursor position inside `missing` for the scenario. -/
def c3_pos : Position := ⟨0, 8⟩

/-- The line `[foo](` as characters. -/
def c4_line : List Char := "[foo](".data

/-- The vault file `bar baz.md`. -/
def c4_target : Referenceable := .File "bar baz.md" { path := "bar baz.md", headings := [] }

/-- The candidate the code builds for `bar baz.md` (match string is the
extension-stripped stem). -/
def c4_candidate : LinkCompletion :=
  .File { path := "bar baz.md", headings := [] } "bar baz" c4_target

/-- The partial-link context `construct` produces for `[foo](` with the
cursor at offset 6. -/
def c4_completer : MarkdownLinkCompleter :=
  { display := ("foo", (1, 4))
    path := ("", (6, 6))
    infile_ref := none
    partial_link := ("[foo](", (0, 6))
    full_range := (0, 6)
    line_nr := 0
    position := ⟨0, 6⟩
    file_path := "doc.md" }

/-- Scenario vault for the recency fallback: each open document holds one
file target. -/
def c5_vault : Vault :=
  { empty_vault with
    select_referenceable_nodes := fun p? =>
      match p? with
      | some "a.md" => [.File "a.md" { path := "a.md", headings := [] }]
      | some "b.md" => [.File "b.md" { path := "b.md", headings := [] }]
      | some "c.md" => [.File "c.md" { path := "c.md", headings := [] }]
      | _ => [] }

/-- Modification times: `a.md` newest (100), `b.md` old (5), `c.md`
unreadable. -/
def c5_mtime : String → Option Nat := fun p =>
  if p = "a.md" then some 100 else if p = "b.md" then some 5 else none

/-- A wiki completer whose captured fragment is empty, with two open
documents. -/
def c5_completer : WikiLinkCompleter :=
  { cmp_text := []
    files := ["a.md", "b.md"]
    index := 0
    character := 2
    line := 0
    context_path := "doc.md" }

/-- The same completer with a third open document whose modification time is
unreadable. -/
def c5_completer3 : WikiLinkCompleter := { c5_completer with files := ["a.md", "b.md", "c.md"] }

/-- The candidate produced for `a.md`. -/
def c5_candA : LinkCompletion :=
  .File { path := "a.md", headings := [] } "a" (.File "a.md" { path := "a.md", headings := [] })

/-- The candidate produced for `b.md`. -/
def c5_candB : LinkCompletion :=
  .File { path := "b.md", headings := [] } "b" (.File "b.md" { path := "b.md", headings := [] })

/-- The candidate produced for `c.md`. -/
def c5_candC : LinkCompletion :=
  .File { path := "c.md", headings := [] } "c" (.File "c.md" { path := "c.md", headings := [] })

/-- A vault file `notes.md` that has a first heading `Intro`. -/
def c6_mdfile : MDFile := { path := "notes.md", headings := [{ heading_text := "Intro" }] }

/-- The candidate the code builds for that file. -/
def c6_candidate : LinkCompletion := .File c6_mdfile "notes" (.File "notes.md" c6_mdfile)

/-- A markdown partial-link context where the user typed no display text. -/
def c6_completer : MarkdownLinkCompleter :=
  { display := ("", (1, 1))
    path := ("", (3, 3))
    infile_ref := none
    partial_link := ("[](", (0, 3))
    full_range := (0, 3)
    line_nr := 0
    position := ⟨0, 3⟩
    file_path := "doc.md" }

/-- The reference occurrence the hover scenario's cursor sits on. -/
def c7_data : ReferenceData := { range := { start := ⟨0, 0⟩, stop := ⟨0, 5⟩ } }

/-- The file target the hover scenario resolves to. -/
def c7_target : Referenceable := .File "target.md" { path := "target.md", headings := [] }

/-- Hover scenario vault: one link occurrence in `doc.md`, resolving to
`target.md` whose anchor is line 2 reading `hello`. -/
def c7_vault : Vault :=
  { empty_vault with
    select_referenceable_nodes := fun _ => [c7_target]
    select_references := fun p? =>
      if p? = some "doc.md" then some [("doc.md", Reference.Link c7_data)] else none
    select_line := fun p ln =>
      if p = "target.md" ∧ ln = 2 then some "hello\n".data else none
    root_dir := "/vault"
    is_reference := fun i _ _ _ => i == c7_target
    get_range := fun _ => { start := ⟨2, 0⟩, stop := ⟨2, 4⟩ }
    get_path := fun _ => "target.md" }

/-- The line `[a](b)` as characters. -/
def c8_line : List Char := "[a](b)".data

/-- The regex match for the prefix `[a](b` of that line. -/
def c8_match : MdMatch :=
  { start := 0
    stop := 5
    display := "a"
    display_range := (1, 2)
    path := "b"
    path_range := (4, 5)
    infileref := none }

/-- The context `construct` produces for `[a](b)` with the cursor at offset
5, right before the `)`. -/
def c8_out : MarkdownLinkCompleter :=
  { display := ("a", (1, 2))
    path := ("b", (4, 5))
    infile_ref := none
    partial_link := ("[a](b", (0, 5))
    full_range := (0, 6)
    line_nr := 0
    position := ⟨0, 5⟩
    file_path := "doc.md" }

/-- A target of a kind `LinkCompletion::new` cannot convert. -/
def c9_tag : Referenceable := .Tag "doc.md"

/-- An ordinary file target used beside it. -/
def c9_other : Referenceable := .File "keep.md" { path := "keep.md", headings := [] }

/-- The hover scenario vault with a resolution primitive that never
matches: the link-kind reference under the cursor resolves to nothing. -/
def c9_vault : Vault := { c7_vault with is_reference := fun _ _ _ _ => false }

theorem mem_of_insert_by_key (x z : String × Nat) (l : List (String × Nat))
    (hz : z ∈ insert_by_key x l) : z = x ∨ z ∈ l := by
  induction l with
  | nil => simpa [insert_by_key] using hz
  | cons y ys ih =>
    by_cases hxy : x.2 ≤ y.2
    · simp only [insert_by_key, if_pos hxy, List.mem_cons] at hz
      simp only [List.mem_cons]
      tauto
    · simp only [insert_by_key, if_neg hxy, List.mem_cons] at hz
      rcases hz with rfl | hz
      · simp
      · rcases ih hz with rfl | h
        · exact Or.inl rfl
        · exact Or.inr (List.mem_cons_of_mem _ h)

theorem sorted_insert_by_key (x : String × Nat) (l : List (String × Nat))
    (h : List.Pairwise (fun a b => a.2 ≤ b.2) l) :
    List.Pairwise (fun a b => a.2 ≤ b.2) (insert_by_key x l) := by
  induction l with
  | nil => simp [insert_by_key]
  | cons y ys ih =>
    rw [List.pairwise_cons] at h
    obtain ⟨hy, hys⟩ := h
    by_cases hxy : x.2 ≤ y.2
    · simp only [insert_by_key, if_pos hxy]
      refine List.Pairwise.cons ?_ (List.Pairwise.cons hy hys)
      intro z hz
      rcases List.mem_cons.mp hz with rfl | hz'
      · exact hxy
      · exact le_trans hxy (hy z hz')
    · simp only [insert_by_key, if_neg hxy]
      refine List.Pairwise.cons ?_ (ih hys)
      intro z hz
      rcases mem_of_insert_by_key x z ys hz with rfl | hz'
      · exact le_of_lt (lt_of_not_le hxy)
      · exact hy z hz'

theorem sorted_sort_by_key_stable (l : List (String × Nat)) :
    List.Pairwise (fun a b => a.2 ≤ b.2) (sort_by_key_stable l) := by
  induction l with
  | nil => simp [sort_by_key_stable]
  | cons x xs ih => exact sorted_insert_by_key x (sort_by_key_stable xs) ih

/-- C1: daily-note classification of a date-named file against today.  The
spec says delta = -1 yields a `"yesterday: <basename>"` candidate; in the
code the yesterday arm demands `num_days() == 1` while `date < today`, which
no date satisfies, so `2024-01-01.md` served on 2024-01-02 is not classified
as a daily note at all (it falls through to a plain File candidate), while
the delta 0 and delta +1 arms behave as claimed. -/
theorem c1_theorem :
    MDDailyNote.new c1_ctx c1_file = none ∧
    LinkCompletion.new c1_ctx c1_file =
      some (.File { path := "2024-01-01.md", headings := [] } "2024-01-01" c1_file) ∧
    MDDailyNote.new c1_ctx_same_day c1_file =
      some { match_string := "today: 2024-01-01", ref_name := "2024-01-01", referenceable := c1_file } ∧
    MDDailyNote.new c1_ctx_day_before c1_file =
      some { match_string := "tomorrow: 2024-01-01", ref_name := "2024-01-01", referenceable := c1_file } := by
  refine ⟨by decide, by decide, by decide, by decide⟩

/-- C2: the spec says a candidate's match string is never used as the
inserted refname when the two differ, and that a daily note inserts the
plain basename under both syntaxes.  The wiki edit does insert `refname()`,
but the markdown `Completable` impl passes the match string (`label`) to
`completion_text_edit`, so a daily-note candidate's markdown edit inserts
`<today: 2024-01-01>` instead of the basename `2024-01-01`. -/
theorem c2_theorem :
    LinkCompletion.new c1_ctx_same_day c1_file = some c2_daily ∧
    c2_daily.refname = "2024-01-01" ∧
    c2_daily.match_string ≠ c2_daily.refname ∧
    (LinkCompletion.md_completions c1_ctx_same_day c2_daily c2_md_completer).text_edit =
      some { range := { start := ⟨0, 0⟩, stop := ⟨0, 3⟩ }
             new_text := "[$\x7b1:\x7d](<today: 2024-01-01>)" } ∧
    (LinkCompletion.wiki_completions c1_ctx_same_day c2_daily c2_wiki_completer).text_edit =
      some { range := { start := ⟨0, 1⟩, stop := ⟨0, 2⟩ }
             new_text := "2024-01-01" } := by
  refine ⟨by decide, by decide, by decide, by decide, by decide⟩

/-- C3: the candidate generator excludes at most the one Referenceable that
is the Unresolved target under the cursor with exactly one vault-wide
reference; with a single `[x](missing)` occurrence and the cursor inside it
no `missing` candidate appears, and a second occurrence brings it back. -/
theorem c3_theorem :
    (∀ (vault : Vault) (p : String) (pos : Position) (u : Referenceable),
      single_unresolved_under_cursor vault p pos = some u →
        u.is_unresolved = true ∧
        unresolved_under_cursor vault p pos = some u ∧
        (vault.select_references_for_referenceable u).map List.length = some 1) ∧
    (∀ (ctx : Ctx) (vault : Vault) (p : String) (pos : Position),
      single_unresolved_under_cursor vault p pos = none →
        link_completions ctx vault p pos =
          (vault.select_referenceable_nodes none).filterMap (LinkCompletion.new ctx)) ∧
    (∀ (ctx : Ctx) (vault : Vault) (p : String) (pos : Position)
        (r : Referenceable) (c : LinkCompletion),
      some r ≠ single_unresolved_under_cursor vault p pos →
        r ∈ vault.select_referenceable_nodes none →
        LinkCompletion.new ctx r = some c →
        c ∈ link_completions ctx vault p pos) ∧
    (link_completions plain_ctx c3_vault1 "doc.md" c3_pos).all
      (fun c => !(c.match_string == "missing")) = true ∧
    (link_completions plain_ctx c3_vault2 "doc.md" c3_pos).any
      (fun c => c.match_string == "missing") = true := by
  refine ⟨?_, ?_, ?_, by decide, by decide⟩
  · intro vault p pos u h
    unfold single_unresolved_under_cursor at h
    rw [Option.bind_eq_some] at h
    obtain ⟨a, ha, h2⟩ := h
    rw [Option.bind_eq_some] at h2
    obtain ⟨refs, hrefs, h3⟩ := h2
    by_cases hl : refs.length = 1
    · rw [if_pos hl, Option.some.injEq] at h3
      subst h3
      refine ⟨?_, ha, ?_⟩
      · exact List.find?_some (by simpa [unresolved_under_cursor] using ha)
      · rw [hrefs]
        simp [hl]
    · rw [if_neg hl] at h3
      exact absurd h3 (Option.noConfusion)
  · intro ctx vault p pos h
    unfold link_completions
    rw [h]
    have hfil : (vault.select_referenceable_nodes none).filter
        (fun referenceable => !(some referenceable == (none : Option Referenceable))) =
        vault.select_referenceable_nodes none :=
      List.filter_eq_self.mpr (fun a _ => rfl)
    simp only [hfil]
  · intro ctx vault p pos r c hne hmem hnew
    unfold link_completions
    rw [List.mem_filterMap]
    refine ⟨r, List.mem_filter.mpr ⟨hmem, ?_⟩, hnew⟩
    simp only [Bool.not_eq_eq_eq_not, Bool.not_true, beq_eq_false_iff_ne, ne_eq]
    exact fun hc => hne (by rw [hc])

theorem c3_witness :
    ((Referenceable.UnresovledFile "doc.md" "missing").is_unresolved = true ∧
     unresolved_under_cursor c3_vault1 "doc.md" c3_pos = some (.UnresovledFile "doc.md" "missing") ∧
     (c3_vault1.select_references_for_referenceable (.UnresovledFile "doc.md" "missing")).map
       List.length = some 1) ∧
    link_completions plain_ctx c3_vault2 "doc.md" c3_pos =
      (c3_vault2.select_referenceable_nodes none).filterMap (LinkCompletion.new plain_ctx) := by
  constructor
  · exact c3_theorem.1 c3_vault1 "doc.md" c3_pos (.UnresovledFile "doc.md" "missing") (by decide)
  · exact c3_theorem.2.1 plain_ctx c3_vault2 "doc.md" c3_pos (by decide)

/-- C4: counterexample to the claimed concrete output.  Completing `[foo](`
with the cursor after `(` against the file `bar baz.md` produces the new
text `[$\x7b1:foo\x7d](<bar baz>)` — the inserted refname is the
extension-stripped stem `bar baz`, not `bar baz.md` as the claim states. -/
theorem c4_counterexample :
    MarkdownLinkCompleter.construct (some c4_line) [] 0 6 "doc.md" = some c4_completer ∧
    LinkCompletion.new plain_ctx c4_target = some c4_candidate ∧
    (LinkCompletion.md_completions plain_ctx c4_candidate c4_completer).text_edit =
      some { range := { start := ⟨0, 0⟩, stop := ⟨0, 6⟩ }
             new_text := "[$\x7b1:foo\x7d](<bar baz>)" } ∧
    "[$\x7b1:foo\x7d](<bar baz>)" ≠ "[$\x7b1:foo\x7d](<bar baz.md>)" := by
  refine ⟨by decide, by decide, by decide, by decide⟩

/-- C4 (amended): every markdown edit's new text is
`[<display>](<refname>)` with the refname wrapped in angle brackets exactly
when it contains a space, replacing `full_range` on the cursor's line; on
the concrete scenario the refname is the extension-stripped stem, so the
produced text is `[$\x7b1:foo\x7d](<bar baz>)`. -/
theorem c4_theorem :
    (∀ (c : MarkdownLinkCompleter) (d : Option String) (r : String),
      (c.completion_text_edit d r).new_text =
        "[" ++ d.getD "" ++ "](" ++
          (if r.data.contains ' ' then "<" ++ r ++ ">" else r) ++ ")") ∧
    (∀ (c : MarkdownLinkCompleter) (d : Option String) (r : String),
      (c.completion_text_edit d r).range =
        { start := ⟨c.line_nr, c.full_range.1⟩, stop := ⟨c.line_nr, c.full_range.2⟩ }) ∧
    MarkdownLinkCompleter.construct (some c4_line) [] 0 6 "doc.md" = some c4_completer ∧
    (LinkCompletion.md_completions plain_ctx c4_candidate c4_completer).text_edit =
      some { range := { start := ⟨0, 0⟩, stop := ⟨0, 6⟩ }
             new_text := "[$\x7b1:foo\x7d](<bar baz>)" } := by
  refine ⟨fun c d r => rfl, fun c d r => rfl, by decide, by decide⟩

/-- C5: counterexample to "most recently modified document first".  With
`a.md` modified at 100 and `b.md` at 5, the fallback list begins with
`b.md`'s candidate: `sorted_by_key` orders ascending, oldest first. -/
theorem c5_counterexample :
    WikiLinkCompleter.recent_fallback plain_ctx c5_vault c5_mtime c5_completer =
      [(c5_candB, "5"), (c5_candA, "100")] ∧
    (5 : Nat) < 100 ∧
    (WikiLinkCompleter.recent_fallback plain_ctx c5_vault c5_mtime c5_completer).head? ≠
      some (c5_candA, "100") := by
  refine ⟨by decide, by decide, by decide⟩

/-- C5 (amended): the fallback groups candidates by open document ordered by
last-modified time ascending — most recently modified last; a document whose
modification time cannot be read is keyed to the epoch (oldest possible), so
it sorts first, and the request still produces a result. -/
theorem c5_theorem :
    (∀ l : List (String × Nat),
      List.Pairwise (fun a b => a.2 ≤ b.2) (sort_by_key_stable l)) ∧
    modified_key c5_mtime "c.md" = ("c.md", 0) ∧
    WikiLinkCompleter.recent_fallback plain_ctx c5_vault c5_mtime c5_completer3 =
      [(c5_candC, "0"), (c5_candB, "5"), (c5_candA, "100")] := by
  refine ⟨sorted_sort_by_key_stable, by decide, by decide⟩

/-- C6: counterexample to "else the empty string".  A File candidate whose
file has a first heading `Intro`, completed with no typed display, emits the
placeholder `$\x7b1:Intro\x7d`, not the empty placeholder. -/
theorem c6_counterexample :
    (LinkCompletion.md_completions plain_ctx c6_candidate c6_completer).text_edit =
      some { range := { start := ⟨0, 0⟩, stop := ⟨0, 3⟩ }
             new_text := "[$\x7b1:Intro\x7d](notes)" } ∧
    "[$\x7b1:Intro\x7d](notes)" ≠ "[$\x7b1:\x7d](notes)" := by
  refine ⟨by decide, by decide⟩

/-- C6 (amended): with no typed display the placeholder text is the heading
text for a Heading candidate, the infile-ref text for an Unresolved
candidate when it has one, a File candidate's first heading text when the
file has headings (else empty), and empty for Block, DailyNote and
infile-less Unresolved candidates; the chosen text is emitted inside the
`$\x7b1:...\x7d` tab stop of the markdown edit. -/
theorem c6_theorem :
    (∀ (h : MDHeading) (m : String) (r : Referenceable),
      link_display_text_of (.Heading h m r) "" = h.heading_text) ∧
    (∀ (m ir : String) (r : Referenceable),
      link_display_text_of (.Unresolved m (some ir) r) "" = ir) ∧
    (∀ (m : String) (r : Referenceable),
      link_display_text_of (.Unresolved m none r) "" = "") ∧
    (∀ (mdfile : MDFile) (m : String) (r : Referenceable),
      link_display_text_of (.File mdfile m r) "" =
        ((mdfile.headings[0]?).map (fun hh => hh.heading_text)).getD "") ∧
    (∀ (m : String) (r : Referenceable),
      link_display_text_of (.Block m r) "" = "") ∧
    (∀ note : MDDailyNote, link_display_text_of (.DailyNote note) "" = "") ∧
    (∀ (ctx : Ctx) (c : LinkCompletion) (completer : MarkdownLinkCompleter),
      (LinkCompletion.md_completions ctx c completer).text_edit =
        some (completer.completion_text_edit
          (some ("$\x7b1:" ++ link_display_text_of c completer.display.1 ++ "\x7d"))
          c.match_string)) ∧
    link_display_text_of c6_candidate "" = "Intro" := by
  refine ⟨fun h m r => rfl, fun m ir r => rfl, fun m r => rfl, fun mdfile m r => rfl,
    fun m r => rfl, fun note => rfl, fun ctx c completer => rfl, by decide⟩

/-- C7: whenever the cursor sits on a link-kind reference that resolves to a
referenceable, the hover answer is the kind-selected heading followed by the
verbatim concatenation of the target's anchor lines plus the following 10
lines. -/
theorem c7_theorem :
    ∀ (vault : Vault) (pos : Position) (p : String)
      (links : List (String × Reference)) (rp : String) (d : ReferenceData)
      (r : Referenceable),
      vault.select_references (some p) = some links →
      links.find? (hover_overlap pos) = some (rp, Reference.Link d) →
      (vault.select_referenceable_nodes none).find? (fun i =>
          vault.is_reference i vault.root_dir (Reference.Link d) rp) = some r →
      hover vault pos p = some { value := hover_header r ++ preview_text vault r } := by
  intro vault pos p links rp d r h1 h2 h3
  unfold hover
  rw [h1]
  simp only [Option.some_bind]
  rw [h2]
  simp only [Option.some_bind]
  rw [h3]
  rfl

theorem c7_witness :
    hover c7_vault ⟨0, 2⟩ "doc.md" = some { value := "File Preview:\n---\n\nhello\n" } := by
  have h := c7_theorem c7_vault ⟨0, 2⟩ "doc.md"
    [("doc.md", Reference.Link c7_data)] "doc.md" c7_data c7_target rfl (by decide) (by decide)
  rw [h]
  rfl

/-- C8: with a regex match in hand, when no complete link occurrence
overlaps the cursor the computed replacement range is the raw match range,
extended by exactly one character when the character at the cursor is `)`;
and when the overlapping occurrence is not a file/heading/block link the
range is the raw match range. -/
theorem c8_theorem :
    ∀ (line_chars : List Char) (refs : List Reference) (line character : Nat)
      (fp : String) (ltc : List Char) (m : MdMatch) (out : MarkdownLinkCompleter),
      sliceGet line_chars 0 character = some ltc →
      find_md_match ltc = some m →
      MarkdownLinkCompleter.construct (some line_chars) refs line character fp = some out →
      (refs.find? (overlaps_cursor character) = none →
        (line_chars[character]? = some ')' → out.full_range = (m.start, m.stop + 1)) ∧
        (line_chars[character]? ≠ some ')' → out.full_range = (m.start, m.stop))) ∧
      (∀ r : Reference, refs.find? (overlaps_cursor character) = some r →
        r.is_md_link_kind = false → out.full_range = (m.start, m.stop)) := by
  intro line_chars refs line character fp ltc m out h1 h2 hc
  unfold MarkdownLinkCompleter.construct at hc
  simp only [Option.some_bind] at hc
  rw [h1] at hc
  simp only [Option.some_bind] at hc
  rw [h2] at hc
  simp only [Option.some_bind, Option.some.injEq] at hc
  subst hc
  constructor
  · intro hfind
    constructor
    · intro hch
      simp [hfind, hch]
    · intro hch
      simp [hfind, hch]
  · intro r hfind hkind
    simp [hfind, hkind]

theorem c8_witness :
    MarkdownLinkCompleter.construct (some c8_line) [] 0 5 "doc.md" = some c8_out ∧
    c8_out.full_range = (0, 6) := by
  refine ⟨by decide, ?_⟩
  exact ((c8_theorem c8_line [] 0 5 "doc.md" "[a](b".data c8_match c8_out
    (by decide) (by decide) (by decide)).1 (by decide)).1 (by decide)

/-- C9: every failure mode of the core degrades to an empty result — a
missing line or unmatched partial-link shape makes either `construct` return
none; a missing reference list, no reference containing the cursor, a
non-link reference, or a link-kind reference whose target resolution finds
no referenceable each make `hover` return none; and a candidate
`LinkCompletion::new` cannot convert is dropped from the batch without
disturbing the other candidates. -/
theorem c9_theorem :
    (∀ (refs : List Reference) (line character : Nat) (fp : String),
      MarkdownLinkCompleter.construct none refs line character fp = none) ∧
    (∀ (lc : List Char) (refs : List Reference) (line character : Nat)
        (fp : String) (ltc : List Char),
      sliceGet lc 0 character = some ltc → find_md_match ltc = none →
      MarkdownLinkCompleter.construct (some lc) refs line character fp = none) ∧
    (∀ (opened : List String) (cp : String) (line character : Nat),
      WikiLinkCompleter.construct none opened cp line character = none) ∧
    (∀ (lc : List Char) (opened : List String) (cp : String) (line character : Nat),
      character < lc.length →
      ((lc.take (character + 1)).enum.zip (lc.take (character + 1)).enum.tail).reverse.find?
        (fun p => decide (p.1.2 = '[' ∧ p.2.2 = '[')) = none →
      WikiLinkCompleter.construct (some lc) opened cp line character = none) ∧
    (∀ (vault : Vault) (pos : Position) (p : String),
      vault.select_references (some p) = none → hover vault pos p = none) ∧
    (∀ (vault : Vault) (pos : Position) (p : String) (links : List (String × Reference)),
      vault.select_references (some p) = some links →
      links.find? (hover_overlap pos) = none → hover vault pos p = none) ∧
    (∀ (vault : Vault) (pos : Position) (p : String) (links : List (String × Reference))
        (rp : String) (rr : Reference),
      vault.select_references (some p) = some links →
      links.find? (hover_overlap pos) = some (rp, rr) →
      rr.is_hover_link = false → hover vault pos p = none) ∧
    (∀ (vault : Vault) (pos : Position) (p : String) (links : List (String × Reference))
        (rp : String) (d : ReferenceData),
      vault.select_references (some p) = some links →
      links.find? (hover_overlap pos) = some (rp, Reference.Link d) →
      (vault.select_referenceable_nodes none).find? (fun i =>
          vault.is_reference i vault.root_dir (Reference.Link d) rp) = none →
      hover vault pos p = none) ∧
    (∀ (ctx : Ctx) (l1 l2 : List Referenceable) (r : Referenceable),
      LinkCompletion.new ctx r = none →
      (l1 ++ r :: l2).filterMap (LinkCompletion.new ctx) =
        (l1 ++ l2).filterMap (LinkCompletion.new ctx)) := by
  refine ⟨fun refs line character fp => rfl, ?_, fun opened cp line character => rfl,
    ?_, ?_, ?_, ?_, ?_, ?_⟩
  · intro lc refs line character fp ltc h1 h2
    unfold MarkdownLinkCompleter.construct
    simp only [Option.some_bind]
    rw [h1]
    simp only [Option.some_bind]
    rw [h2]
    rfl
  · intro lc opened cp line character hlt hfind
    unfold WikiLinkCompleter.construct
    simp only [Option.some_bind]
    rw [if_pos hlt]
    simp only [Option.some_bind]
    rw [hfind]
    rfl
  · intro vault pos p h
    unfold hover
    rw [h]
    rfl
  · intro vault pos p links h1 h2
    unfold hover
    rw [h1]
    simp only [Option.some_bind]
    rw [h2]
    rfl
  · intro vault pos p links rp rr h1 h2 hkind
    unfold hover
    rw [h1]
    simp only [Option.some_bind]
    rw [h2]
    simp only [Option.some_bind]
    cases rr with
    | Link d => simp [Reference.is_hover_link] at hkind
    | Tag d => rfl
    | WikiFileLink d => rfl
    | MDFileLink d => rfl
    | MDHeadingLink d => rfl
    | MDIndexedBlockLink d => rfl
    | Footnote d => rfl
  · intro vault pos p links rp d h1 h2 h3
    unfold hover
    rw [h1]
    simp only [Option.some_bind]
    rw [h2]
    simp only [Option.some_bind]
    rw [h3]
    rfl
  · intro ctx l1 l2 r h
    simp [List.filterMap_append, List.filterMap_cons, h]

theorem c9_witness :
    MarkdownLinkCompleter.construct (some "abc".data) [] 0 2 "doc.md" = none ∧
    WikiLinkCompleter.construct none [] "doc.md" 0 1 = none ∧
    hover empty_vault ⟨0, 0⟩ "doc.md" = none ∧
    hover c9_vault ⟨0, 2⟩ "doc.md" = none ∧
    LinkCompletion.new plain_ctx c9_tag = none ∧
    ([] ++ c9_tag :: [c9_other]).filterMap (LinkCompletion.new plain_ctx) =
      ([] ++ [c9_other]).filterMap (LinkCompletion.new plain_ctx) := by
  refine ⟨?_, ?_, ?_, ?_, by decide, ?_⟩
  · exact c9_theorem.2.1 "abc".data [] 0 2 "doc.md" "ab".data (by decide) (by decide)
  · exact c9_theorem.2.2.1 [] "doc.md" 0 1
  · exact c9_theorem.2.2.2.2.1 empty_vault ⟨0, 0⟩ "doc.md" (by decide)
  · exact c9_theorem.2.2.2.2.2.2.2.1 c9_vault ⟨0, 2⟩ "doc.md"
      [("doc.md", Reference.Link c7_data)] "doc.md" c7_data
      (by decide) (by decide) (by decide)
  · exact c9_theorem.2.2.2.2.2.2.2.2 plain_ctx [] [c9_other] c9_tag (by decide)

/-- C10: every wiki completion item's edit inserts exactly the candidate's
`refname()` — the `|<display>` suffix is never generated because the
synthesizer is invoked with no display — and the item carries no snippet
flag, so its insertion format stays plain. -/
theorem c10_theorem :
    ∀ (ctx : Ctx) (c : LinkCompletion) (completer : WikiLinkCompleter),
      (LinkCompletion.wiki_completions ctx c completer).text_edit =
        some { range := { start := ⟨completer.line, completer.index + 1⟩
                          stop := ⟨completer.line, completer.character⟩ }
               new_text := c.refname } ∧
      (LinkCompletion.wiki_completions ctx c completer).insert_text_format = none := by
  intro ctx c completer
  constructor
  · show some (completer.completion_text_edit none c.refname) = _
    unfold WikiLinkCompleter.completion_text_edit
    simp only [Option.map_none', Option.getD_none, String.append_empty]
  · rfl
